import Mathlib

/-!
# Course site scripts: prerequisite-tree visualisation and search filter

A shallow embedding of `site/static/js/courses-tree-visual.js` (graph builder,
canvas sizing, the `ticked` render pass and the drag handlers) and of
`site/static/js/site-scripts.js` with the search-bar filter of `courses.js` /
`courses-tree.js`.

Conventions of the embedding.

* The page-embedded object `data` is an association list of its own
  properties in `Object.keys` order.  A value is `some vs` for an array and
  `none` for a falsy value (`null`, `undefined`), which `data[k] || []` turns
  into the empty array.  Keys of an object are pairwise distinct; theorems
  that need this take `(keys data).Nodup` as a hypothesis.
* Node positions are finite numbers.  `Math.max` / `Math.min` only compare,
  they never round, so the rationals `ℚ` model them exactly.
* DOM attribute writes are returned as explicit values.
-/

namespace CourseTree

/-! ## Input mapping -/

/-- The page-embedded adjacency mapping `data`. -/
abbrev Data := List (String × Option (List String))

/-- The key list `Object.keys(data)`. -/
def keys (data : Data) : List String :=
  data.map Prod.fst

/-- The property read `data[k]`: the value stored under the first (only) own
property named `k`, `none` when the property is absent or holds a falsy value. -/
def getProp (data : Data) (k : String) : Option (List String) :=
  match data.lookup k with
  | some v => v
  | none => none

/-- The expression `v || []` for an array-or-falsy value. -/
def orEmpty (v : Option (List String)) : List String :=
  match v with
  | some vs => vs
  | none => []

/-! ## Constants and canvas size (lines 9-16) -/

/-- Line 10: `const padding = 30`. -/
def padding : ℚ := 30

/-- Line 13: `const radius = 30`. -/
def radius : ℚ := 30

/-- Line 15: `const width = Object.keys(data).length <= 30 ? 500 : 1000`. -/
def width (data : Data) : ℚ :=
  if (keys data).length ≤ 30 then 500 else 1000

/-- Line 16: `const height = Object.keys(data).length <= 30 ? 500 : 1000`. -/
def height (data : Data) : ℚ :=
  if (keys data).length ≤ 30 then 500 else 1000

/-! ## Graph builder (lines 49-56, 81-86) -/

/-- A node object as built on line 50: `{ id: key }`. -/
structure Node where
  id : String
  deriving DecidableEq, Repr

/-- A link object as built on line 53: `{ source: node.id, target }`. -/
structure Link where
  source : String
  target : String
  deriving DecidableEq, Repr

/-- Line 50: `const nodes = Object.keys(data).map(key => ({ id: key }))`. -/
def nodes (data : Data) : List Node :=
  (keys data).map (fun key => { id := key })

/-- Line 53: `const links = nodes.flatMap(node => (data[node.id] || []).map(target =>
({ source: node.id, target })))`. -/
def links (data : Data) : List Link :=
  (nodes data).flatMap (fun node =>
    (orEmpty (getProp data node.id)).map (fun target => { source := node.id, target := target }))

/-- Line 56: `const headNodes = nodes.filter(node => links.every(link => link.target !== node.id))`. -/
def headNodes (data : Data) : List Node :=
  (nodes data).filter (fun node => (links data).all (fun link => link.target != node.id))

/-- The fill callback of the circles:
`d => headNodes.some(headNode => headNode.id === d.id) ? "red" : "#ccc"`. -/
def fill (data : Data) (d : Node) : String :=
  if (headNodes data).any (fun headNode => headNode.id == d.id) then "red" else "#ccc"

/-- The total number of listed values of the mapping. -/
def totalValues (data : Data) : Nat :=
  (data.map (fun kv => (orEmpty kv.2).length)).sum

/-- The example mapping `{CS100: [], CS200: [CS100], CS300: [CS200]}`. -/
def exampleData : Data :=
  [("CS100", some []), ("CS200", some ["CS100"]), ("CS300", some ["CS200"])]

/-- The two-course mapping `{A: [B], B: [A]}`. -/
def cycleData : Data :=
  [("A", some ["B"]), ("B", some ["A"])]

/-- The one-course mapping `{A: [A]}`. -/
def selfLoopData : Data :=
  [("A", some ["A"])]

/-- A mapping with a repeated value and a `null` value: `{A: [B, B], B: null}`. -/
def dupData : Data :=
  [("A", some ["B", "B"]), ("B", none)]

/-- An edge between existing nodes: a built link whose target is a key of the
mapping (its source is a key by construction). -/
def Edge (data : Data) (a b : String) : Prop :=
  ({ source := a, target := b } : Link) ∈ links data ∧ b ∈ keys data

/-- The mapping has no directed cycle among its edges between existing nodes:
no node reaches itself along one or more such edges (a self-loop is a cycle of
length one, a dangling target is on no cycle). -/
def Acyclic (data : Data) : Prop :=
  ∀ k : String, ¬ Relation.TransGen (Edge data) k k

/-! ## Simulation state, `ticked` (lines 104-118) -/

/-- A node object once `simulation.nodes(nodes)` has given it a position;
`fx` / `fy` are the pin, `none` for `null` / unset. -/
structure SimNode where
  id : String
  x : ℚ
  y : ℚ
  fx : Option ℚ
  fy : Option ℚ
  deriving DecidableEq, Repr

/-- The node object a link end refers to.  The link force resolves the ids of
`source` / `target` to the node objects through the accessor `d => d.id`;
`none` when no node carries the id. -/
def nodeById (ns : List SimNode) (id : String) : Option SimNode :=
  ns.find? (fun n => n.id == id)

/-- The callback of `cx`: `x => Math.max(padding, Math.min(width - padding, x))`. -/
def clampX (data : Data) (x : ℚ) : ℚ :=
  max padding (min (width data - padding) x)

/-- The callback of `cy`: `y => Math.max(padding, Math.min(height - padding, y))`. -/
def clampY (data : Data) (y : ℚ) : ℚ :=
  max padding (min (height data - padding) y)

/-- The attribute values one call of `ticked` writes: per link `x1 y1 x2 y2`
(`none` when the end is no node object, the attribute is then removed), per
circle `cx cy`, per label `x y`. -/
structure Frame where
  x1 : List (Option ℚ)
  y1 : List (Option ℚ)
  x2 : List (Option ℚ)
  y2 : List (Option ℚ)
  cx : List ℚ
  cy : List ℚ
  tx : List ℚ
  ty : List ℚ
  deriving DecidableEq, Repr

/-- The function `ticked`.  The statements run in source order: the four link
attributes are read from the current node positions, then the `cx` pass
assigns `d.x` over all circles, then the `cy` pass assigns `d.y`, then the
labels read the stored positions.  Returns the nodes after the call and the
attributes written. -/
def ticked (data : Data) (ns : List SimNode) (ls : List Link) : List SimNode × Frame :=
  let x1 := ls.map (fun d => (nodeById ns d.source).map (fun n => n.x))
  let y1 := ls.map (fun d => (nodeById ns d.source).map (fun n => n.y))
  let x2 := ls.map (fun d => (nodeById ns d.target).map (fun n => n.x))
  let y2 := ls.map (fun d => (nodeById ns d.target).map (fun n => n.y))
  let ns1 := ns.map (fun d => { d with x := clampX data d.x })
  let cx := ns1.map (fun d => d.x)
  let ns2 := ns1.map (fun d => { d with y := clampY data d.y })
  let cy := ns2.map (fun d => d.y)
  let tx := ns2.map (fun d => d.x)
  let ty := ns2.map (fun d => d.y)
  (ns2, { x1 := x1, y1 := y1, x2 := x2, y2 := y2, cx := cx, cy := cy, tx := tx, ty := ty })

/-- The position write of one call of `ticked` on one node. -/
def clampNode (data : Data) (n : SimNode) : SimNode :=
  { n with x := clampX data n.x, y := clampY data n.y }

/-- Course CS200 dragged to `(-10, -10)` (the simulation step has moved it onto
its pin) beside CS100 at `(100, 100)`. -/
def draggedOutNodes : List SimNode :=
  [{ id := "CS200", x := -10, y := -10, fx := some (-10), fy := some (-10) },
   { id := "CS100", x := 100, y := 100, fx := none, fy := none }]

/-- The link CS200 -> CS100. -/
def draggedOutLinks : List Link :=
  [{ source := "CS200", target := "CS100" }]

/-! ## Drag handlers (lines 120-136) -/

/-- The part of the simulation object the handlers touch. -/
structure Simulation where
  alpha : ℚ
  alphaTarget : ℚ
  running : Bool
  deriving DecidableEq, Repr

/-- A drag event: `active` is the number of other drag gestures in progress,
`x` / `y` the pointer position. -/
structure DragEvent where
  active : Nat
  x : ℚ
  y : ℚ
  deriving DecidableEq, Repr

/-- The handler `dragstarted(event, d)`. -/
def dragstarted (event : DragEvent) (d : SimNode) (simulation : Simulation) :
    SimNode × Simulation :=
  let simulation1 :=
    if event.active = 0 then { simulation with alphaTarget := 3 / 10, running := true }
    else simulation
  ({ d with fx := some d.x, fy := some d.y }, simulation1)

/-- The handler `dragged(event, d)`. -/
def dragged (event : DragEvent) (d : SimNode) : SimNode :=
  { d with fx := some event.x, fy := some event.y }

/-- The handler `dragended(event, d)`. -/
def dragended (event : DragEvent) (d : SimNode) (simulation : Simulation) :
    SimNode × Simulation :=
  let simulation1 :=
    if event.active = 0 then { simulation with alphaTarget := 0 }
    else simulation
  ({ d with fx := none, fy := none }, simulation1)

end CourseTree

/-! ## `filterFactory` (site-scripts.js) and the search-bar filter -/

namespace SiteScripts

/-- The function `filterFactory(elements, filterFunc, showFunc, hideFunc)`: the
returned handler, as a transformer of the page state the callbacks read and
write. -/
def filterFactory {ε σ : Type} (elements : List ε) (filterFunc : ε → σ → Bool)
    (showFunc hideFunc : ε → σ → σ) : σ → σ :=
  fun page =>
    elements.foldl
      (fun page element =>
        if filterFunc element page then hideFunc element page else showFunc element page)
      page

/-- Which of the two callbacks a call went to. -/
inductive Call where
  | showFunc
  | hideFunc
  deriving DecidableEq, Repr

/-- The filter callback run beside a call log: it ignores the log. -/
def loggedFilter {ε σ : Type} (filterFunc : ε → σ → Bool) :
    ε → σ × List (ε × Call) → Bool :=
  fun element st => filterFunc element st.1

/-- A show or hide callback that also appends itself to the call log. -/
def logged {ε σ : Type} (tag : Call) (func : ε → σ → σ) :
    ε → σ × List (ε × Call) → σ × List (ε × Call) :=
  fun element st => (func element st.1, st.2 ++ [(element, tag)])

/-- The state of a courses page: the search bar's `value`, and per course
element (a DOM node, named by a number) the text of its label
(`label.textContent || label.innerText`) and its `style.display`. -/
structure Page where
  value : List Char
  courseCode : Nat → List Char
  display : Nat → String

/-- The built-in `toUpperCase`, over the per-character upper-case mapping `upc`
(one character can map to several, as `ß` to `SS`). -/
def toUpperCase (upc : Char → List Char) (s : List Char) : List Char :=
  s.flatMap upc

/-- The scan of `indexOf` from position `k` of the receiver, `s` being what is left of it. -/
def indexOfFrom (t : List Char) : List Char → Nat → Int
  | [], k => if t.isPrefixOf [] then (k : Int) else -1
  | c :: cs, k => if t.isPrefixOf (c :: cs) then (k : Int) else indexOfFrom t cs (k + 1)

/-- The built-in `s.indexOf(t)`: the least position at which `t` occurs in `s`, or `-1`. -/
def indexOf (s t : List Char) : Int :=
  indexOfFrom t s 0

/-- The filtering function of the search bar (courses.js lines 13-23,
courses-tree.js lines 14-24). -/
def courseFilter (upc : Char → List Char) (courseElement : Nat) (page : Page) : Bool :=
  let text := toUpperCase upc page.value
  if text.isEmpty then false
  else
    let courseCode := page.courseCode courseElement
    decide (indexOf (toUpperCase upc courseCode) text ≤ -1)

/-- The show element function: `courseElement.style.display = ""`. -/
def showElement (courseElement : Nat) (page : Page) : Page :=
  { page with display := fun e => if e = courseElement then "" else page.display e }

/-- The hide element function: `courseElement.style.display = "none"`. -/
def hideElement (courseElement : Nat) (page : Page) : Page :=
  { page with display := fun e => if e = courseElement then "none" else page.display e }

/-- The keyup handler of the search bar over the course elements `coursesList`. -/
def keyup (upc : Char → List Char) (coursesList : List Nat) : Page → Page :=
  filterFactory coursesList (courseFilter upc) showElement hideElement

/-- One turn of the loop of the keyup handler. -/
def keyupStep (upc : Char → List Char) (page : Page) (e : Nat) : Page :=
  if courseFilter upc e page then hideElement e page else showElement e page

/-- The ASCII upper-case mapping. -/
def asciiUpper (c : Char) : List Char := [c.toUpper]

/-- A page with two course rows and the search text `cs1`. -/
def examplePage : Page :=
  { value := "cs1".toList
    courseCode := fun e => if e = 0 then "CS100".toList else "MA200".toList
    display := fun _ => "" }

end SiteScripts

/-! ## Graph builder: helper lemmas -/

namespace CourseTree

theorem lookup_of_mem_nodup (data : Data) (h : (keys data).Nodup) (k : String)
    (v : Option (List String)) (hm : (k, v) ∈ data) : data.lookup k = some v := by
  induction data with
  | nil => simp at hm
  | cons kv rest ih =>
    obtain ⟨k0, v0⟩ := kv
    simp only [keys, List.map_cons, List.nodup_cons, List.mem_map, not_exists, not_and] at h
    rcases List.mem_cons.mp hm with heq | hrest
    · cases heq
      simp [List.lookup]
    · have hne : k ≠ k0 := fun hk => h.1 (k, v) hrest (by simp [hk])
      have hb : (k == k0) = false := by simpa using hne
      simp only [List.lookup, hb]
      exact ih h.2 hrest

theorem getProp_of_mem_nodup (data : Data) (h : (keys data).Nodup) (kv : String × Option (List String))
    (hm : kv ∈ data) : getProp data kv.1 = kv.2 := by
  unfold getProp
  rw [lookup_of_mem_nodup data h kv.1 kv.2 hm]

theorem links_eq_of_nodup (data : Data) (h : (keys data).Nodup) :
    links data =
      data.flatMap (fun kv => (orEmpty kv.2).map (fun t => ({ source := kv.1, target := t } : Link))) := by
  unfold links nodes keys
  rw [List.map_map, List.flatMap_map]
  apply List.flatMap_congr
  intro kv hkv
  simp only [Function.comp]
  rw [getProp_of_mem_nodup data h kv hkv]

theorem source_mem_keys (data : Data) (l : Link) (hl : l ∈ links data) : l.source ∈ keys data := by
  unfold links nodes at hl
  simp only [List.mem_flatMap, List.mem_map] at hl
  obtain ⟨n, ⟨k, hk, rfl⟩, t, _, rfl⟩ := hl
  exact hk

theorem mem_headNodes_iff (data : Data) (n : Node) :
    n ∈ headNodes data ↔ n ∈ nodes data ∧ ∀ l ∈ links data, l.target ≠ n.id := by
  simp [headNodes, List.mem_filter, List.all_eq_true]

theorem fill_red_iff (data : Data) (n : Node) : fill data n = "red" ↔ n ∈ headNodes data := by
  unfold fill
  constructor
  · intro h
    by_cases hany : (headNodes data).any (fun headNode => headNode.id == n.id) = true
    · rw [List.any_eq_true] at hany
      obtain ⟨m, hm, hid⟩ := hany
      have : m = n := by
        cases m; cases n
        simpa using hid
      exact this ▸ hm
    · rw [if_neg hany] at h
      exact absurd h (by decide)
  · intro h
    have hany : (headNodes data).any (fun headNode => headNode.id == n.id) = true :=
      List.any_eq_true.mpr ⟨n, h, by simp⟩
    rw [if_pos hany]

theorem fill_grey_iff (data : Data) (n : Node) : fill data n = "#ccc" ↔ n ∉ headNodes data := by
  rw [← fill_red_iff]
  unfold fill
  split
  · simp
  · simp

/-! ## `ticked`: helper lemmas -/

theorem padding_le_width (data : Data) : padding ≤ width data - padding := by
  unfold padding width
  split <;> norm_num

theorem padding_le_height (data : Data) : padding ≤ height data - padding := by
  unfold padding height
  split <;> norm_num

theorem clampX_bounds (data : Data) (x : ℚ) :
    padding ≤ clampX data x ∧ clampX data x ≤ width data - padding := by
  unfold clampX
  exact ⟨le_max_left _ _, max_le (padding_le_width data) (min_le_left _ _)⟩

theorem clampY_bounds (data : Data) (y : ℚ) :
    padding ≤ clampY data y ∧ clampY data y ≤ height data - padding := by
  unfold clampY
  exact ⟨le_max_left _ _, max_le (padding_le_height data) (min_le_left _ _)⟩

theorem clampX_inside (data : Data) (x : ℚ) (h1 : padding ≤ x) (h2 : x ≤ width data - padding) :
    clampX data x = x := by
  unfold clampX
  rw [min_eq_right h2, max_eq_right h1]

theorem clampY_inside (data : Data) (y : ℚ) (h1 : padding ≤ y) (h2 : y ≤ height data - padding) :
    clampY data y = y := by
  unfold clampY
  rw [min_eq_right h2, max_eq_right h1]

theorem ticked_nodes (data : Data) (ns : List SimNode) (ls : List Link) :
    (ticked data ns ls).1 = ns.map (clampNode data) := by
  simp [ticked, clampNode, Function.comp_def]

theorem clampNode_inside (data : Data) (n : SimNode) (hx1 : padding ≤ n.x)
    (hx2 : n.x ≤ width data - padding) (hy1 : padding ≤ n.y)
    (hy2 : n.y ≤ height data - padding) : clampNode data n = n := by
  unfold clampNode
  rw [clampX_inside data n.x hx1 hx2, clampY_inside data n.y hy1 hy2]

theorem clampNode_idem (data : Data) (n : SimNode) :
    clampNode data (clampNode data n) = clampNode data n :=
  clampNode_inside data (clampNode data n) (clampX_bounds data n.x).1 (clampX_bounds data n.x).2
    (clampY_bounds data n.y).1 (clampY_bounds data n.y).2

/-! ## Root nodes of an acyclic mapping -/

theorem exists_head_of_acyclic (data : Data) (hne : data ≠ []) (hac : Acyclic data) :
    ∃ k ∈ keys data, ({ id := k } : Node) ∈ headNodes data := by
  obtain ⟨kv, hkv⟩ := List.exists_mem_of_ne_nil data hne
  have hk0 : kv.1 ∈ keys data := List.mem_map.mpr ⟨kv, hkv, rfl⟩
  let K := { k : String // k ∈ keys data }
  let r : K → K → Prop := fun a b => Relation.TransGen (Edge data) a.1 b.1
  haveI : IsTrans K r := ⟨fun _ _ _ hab hbc => Relation.TransGen.trans hab hbc⟩
  haveI : IsIrrefl K r := ⟨fun a => hac a.1⟩
  haveI : Finite K := List.finite_toSet (keys data)
  have wf : WellFounded r := Finite.wellFounded_of_trans_of_irrefl r
  obtain ⟨m, _, hmin⟩ := wf.has_min Set.univ ⟨⟨kv.1, hk0⟩, trivial⟩
  refine ⟨m.1, m.2, ?_⟩
  rw [mem_headNodes_iff]
  refine ⟨List.mem_map.mpr ⟨m.1, m.2, rfl⟩, ?_⟩
  intro l hl htgt
  have hsrc : l.source ∈ keys data := source_mem_keys data l hl
  have hedge : Edge data l.source m.1 := by
    refine ⟨?_, m.2⟩
    have : ({ source := l.source, target := m.1 } : Link) = l := by
      cases l
      simp at htgt
      simp [htgt]
    rw [this]
    exact hl
  exact hmin ⟨l.source, hsrc⟩ trivial (Relation.TransGen.single hedge)

theorem acyclic_of_rank (data : Data) (rank : String → Nat)
    (h : ∀ a b, Edge data a b → rank b < rank a) : Acyclic data := by
  have key : ∀ a b, Relation.TransGen (Edge data) a b → rank b < rank a := by
    intro a b hab
    induction hab with
    | single e => exact h _ _ e
    | tail _ e ih => exact lt_trans (h _ _ e) ih
  intro k hk
  exact lt_irrefl _ (key k k hk)

theorem exampleData_acyclic : Acyclic exampleData := by
  apply acyclic_of_rank exampleData
    (fun k => if k = "CS100" then 0 else if k = "CS200" then 1 else 2)
  intro a b hab
  have hl : ({ source := a, target := b } : Link) ∈
      [{ source := "CS200", target := "CS100" }, { source := "CS300", target := "CS200" }] := by
    have := hab.1
    have hlinks : links exampleData =
        [{ source := "CS200", target := "CS100" }, { source := "CS300", target := "CS200" }] := by
      decide
    rwa [hlinks] at this
  simp only [List.mem_cons, Link.mk.injEq, List.mem_singleton, List.not_mem_nil, or_false] at hl
  rcases hl with ⟨rfl, rfl⟩ | ⟨rfl, rfl⟩ <;> decide

/-! ## Graph builder: the claims -/

/-- C1: for a mapping with N keys and M listed values in total (a null value
counting as the empty list), the builder produces exactly N nodes and exactly M
links; repeated values each give a link. -/
theorem C1_node_and_link_counts (data : Data) (h : (keys data).Nodup) :
    (nodes data).length = (keys data).length ∧ (links data).length = totalValues data := by
  refine ⟨by simp [nodes], ?_⟩
  rw [links_eq_of_nodup data h, totalValues, List.length_flatMap]
  simp only [Function.comp_def, List.length_map]

theorem C1_node_and_link_counts_witness :
    (keys dupData).Nodup ∧ (keys dupData).length = 2 ∧ totalValues dupData = 2 ∧
      (nodes dupData).length = (keys dupData).length ∧
      (links dupData).length = totalValues dupData :=
  ⟨by decide, by decide, by decide, C1_node_and_link_counts dupData (by decide)⟩

/-- C2: a built node is in `headNodes` exactly when no link targets its id, and
its circle is filled `"red"` exactly when it is in `headNodes`, `"#ccc"` otherwise. -/
theorem C2_head_iff_no_incoming (data : Data) (n : Node) (hn : n ∈ nodes data) :
    (n ∈ headNodes data ↔ ∀ l ∈ links data, l.target ≠ n.id) ∧
      (fill data n = "red" ↔ n ∈ headNodes data) ∧
      (fill data n = "#ccc" ↔ n ∉ headNodes data) := by
  refine ⟨?_, fill_red_iff data n, fill_grey_iff data n⟩
  rw [mem_headNodes_iff]
  exact ⟨fun h => h.2, fun h => ⟨hn, h⟩⟩

theorem C2_head_iff_no_incoming_witness :
    ({ id := "CS300" } : Node) ∈ nodes exampleData ∧
      (({ id := "CS300" } : Node) ∈ headNodes exampleData ↔
        ∀ l ∈ links exampleData, l.target ≠ "CS300") ∧
      (fill exampleData { id := "CS300" } = "red" ↔
        ({ id := "CS300" } : Node) ∈ headNodes exampleData) ∧
      (fill exampleData { id := "CS300" } = "#ccc" ↔
        ({ id := "CS300" } : Node) ∉ headNodes exampleData) :=
  ⟨by decide, C2_head_iff_no_incoming exampleData { id := "CS300" } (by decide)⟩

/-- C3: `nodes` lists one node per key in key order; `links` is the sequence
of `{source: key, target: value}` taken key by key and, within a key, value by
value; every link's source is the id of a built node.  On
`{CS100: [], CS200: [CS100], CS300: [CS200]}` this gives the nodes CS100,
CS200, CS300, the links CS200->CS100, CS300->CS200 and the root set {CS300}. -/
theorem C3_nodes_links_order (data : Data) (h : (keys data).Nodup) :
    (nodes data).map Node.id = keys data ∧
      links data =
        data.flatMap (fun kv =>
          (orEmpty kv.2).map (fun t => ({ source := kv.1, target := t } : Link))) ∧
      (∀ l ∈ links data, ∃ n ∈ nodes data, n.id = l.source) ∧
      nodes exampleData = [{ id := "CS100" }, { id := "CS200" }, { id := "CS300" }] ∧
      links exampleData =
        [{ source := "CS200", target := "CS100" }, { source := "CS300", target := "CS200" }] ∧
      headNodes exampleData = [{ id := "CS300" }] := by
  refine ⟨?_, links_eq_of_nodup data h, ?_, by decide, by decide, by decide⟩
  · simp [nodes, Function.comp_def]
  · intro l hl
    exact ⟨{ id := l.source }, by simpa [nodes] using source_mem_keys data l hl, rfl⟩

theorem C3_nodes_links_order_witness :
    (keys dupData).Nodup ∧ (nodes dupData).map Node.id = ["A", "B"] ∧
      links dupData = [{ source := "A", target := "B" }, { source := "A", target := "B" }] :=
  ⟨by decide, (C3_nodes_links_order dupData (by decide)).1,
    (C3_nodes_links_order dupData (by decide)).2.1⟩

/-- C4: the canvas width and height are equal; both are 500 for a mapping of at
most 30 keys (the empty mapping included) and both 1000 from 31 keys on. -/
theorem C4_canvas_size (data : Data) :
    width data = height data ∧
      ((keys data).length ≤ 30 → width data = 500 ∧ height data = 500) ∧
      (31 ≤ (keys data).length → width data = 1000 ∧ height data = 1000) ∧
      (width [] = 500 ∧ height [] = 500) := by
  refine ⟨rfl, ?_, ?_, ?_⟩
  · intro hk
    simp [width, height, hk]
  · intro hk
    have : ¬ (keys data).length ≤ 30 := by omega
    simp [width, height, this]
  · simp [width, height, keys]

theorem C4_canvas_size_witness :
    (keys exampleData).length ≤ 30 ∧ width exampleData = 500 ∧ height exampleData = 500 :=
  ⟨by decide, (C4_canvas_size exampleData).2.1 (by decide)⟩

/-! ## `ticked` and the drag handlers: the claims -/

/-- C5: the clamp of `ticked` is idempotent for every position and either
canvas size: clamping twice equals clamping once, on x and on y, and a second
call of `ticked` leaves the node positions of the first. -/
theorem C5_clamp_idempotent (data : Data) (x y : ℚ) (ns : List SimNode) (ls : List Link) :
    (width data = 500 ∨ width data = 1000) ∧
      clampX data (clampX data x) = clampX data x ∧
      clampY data (clampY data y) = clampY data y ∧
      (ticked data (ticked data ns ls).1 ls).1 = (ticked data ns ls).1 := by
  refine ⟨?_, ?_, ?_, ?_⟩
  · unfold width
    split
    · exact Or.inl rfl
    · exact Or.inr rfl
  · exact clampX_inside data _ (clampX_bounds data x).1 (clampX_bounds data x).2
  · exact clampY_inside data _ (clampY_bounds data y).1 (clampY_bounds data y).2
  · rw [ticked_nodes, ticked_nodes, List.map_map]
    apply List.map_congr_left
    intro n _
    exact clampNode_idem data n

/-- C6: after a call of `ticked` every node's stored x is in
`[padding, width - padding]` and its stored y in `[padding, height - padding]`,
whatever its position before; the circles' `cx` / `cy` and the labels' `x` / `y`
are the stored clamped values; a node inside the bounds is left as it was.
With padding 30 on the 500x500 canvas, (50, 50) stays and (-10, -10) becomes (30, 30). -/
theorem C6_ticked_clamps_positions (data : Data) (ns : List SimNode) (ls : List Link) :
    (∀ n ∈ (ticked data ns ls).1,
        padding ≤ n.x ∧ n.x ≤ width data - padding ∧
          padding ≤ n.y ∧ n.y ≤ height data - padding) ∧
      (ticked data ns ls).1 =
        ns.map (fun n => { n with x := clampX data n.x, y := clampY data n.y }) ∧
      (ticked data ns ls).2.cx = (ticked data ns ls).1.map (fun n => n.x) ∧
      (ticked data ns ls).2.cy = (ticked data ns ls).1.map (fun n => n.y) ∧
      (ticked data ns ls).2.tx = (ticked data ns ls).1.map (fun n => n.x) ∧
      (ticked data ns ls).2.ty = (ticked data ns ls).1.map (fun n => n.y) ∧
      (∀ (i : Nat) (n : SimNode), ns[i]? = some n →
        padding ≤ n.x → n.x ≤ width data - padding →
        padding ≤ n.y → n.y ≤ height data - padding →
        (ticked data ns ls).1[i]? = some n) ∧
      (padding = 30 ∧ width exampleData = 500 ∧ height exampleData = 500 ∧
        (ticked exampleData [{ id := "CS200", x := 50, y := 50, fx := none, fy := none }] []).1 =
          [{ id := "CS200", x := 50, y := 50, fx := none, fy := none }] ∧
        (ticked exampleData [{ id := "CS200", x := -10, y := -10, fx := none, fy := none }] []).1 =
          [{ id := "CS200", x := 30, y := 30, fx := none, fy := none }]) := by
  refine ⟨?_, ?_, ?_, ?_, ?_, ?_, ?_, ?_⟩
  · intro n hn
    rw [ticked_nodes, List.mem_map] at hn
    obtain ⟨m, _, rfl⟩ := hn
    exact ⟨(clampX_bounds data m.x).1, (clampX_bounds data m.x).2,
      (clampY_bounds data m.y).1, (clampY_bounds data m.y).2⟩
  · exact ticked_nodes data ns ls
  · simp [ticked, Function.comp_def]
  · simp [ticked, Function.comp_def]
  · simp [ticked, Function.comp_def]
  · simp [ticked, Function.comp_def]
  · intro i n hi hx1 hx2 hy1 hy2
    rw [ticked_nodes, List.getElem?_map, hi, Option.map_some',
      clampNode_inside data n hx1 hx2 hy1 hy2]
  · norm_num [ticked, clampX, clampY, width, height, padding, keys, exampleData]

theorem C6_ticked_clamps_positions_witness :
    (ticked exampleData draggedOutNodes draggedOutLinks).2.cx =
      (ticked exampleData draggedOutNodes draggedOutLinks).1.map (fun n => n.x) :=
  (C6_ticked_clamps_positions exampleData draggedOutNodes draggedOutLinks).2.2.1

/-- C7 (the code at the failing input): with CS200 at `(-10, -10)` on the
500x500 canvas, one call of `ticked` writes the link CS200 -> CS100 from
`(-10, -10)` while it writes the circle and the label of CS200 at `(30, 30)`:
the line does not start at the clamped position of its source. -/
theorem C7_line_read_before_clamp :
    (ticked exampleData draggedOutNodes draggedOutLinks).2.x1 = [some (-10)] ∧
      (ticked exampleData draggedOutNodes draggedOutLinks).2.y1 = [some (-10)] ∧
      (ticked exampleData draggedOutNodes draggedOutLinks).2.x2 = [some 100] ∧
      (ticked exampleData draggedOutNodes draggedOutLinks).2.y2 = [some 100] ∧
      (ticked exampleData draggedOutNodes draggedOutLinks).2.cx = [30, 100] ∧
      (ticked exampleData draggedOutNodes draggedOutLinks).2.cy = [30, 100] ∧
      (ticked exampleData draggedOutNodes draggedOutLinks).2.tx = [30, 100] ∧
      (ticked exampleData draggedOutNodes draggedOutLinks).2.ty = [30, 100] := by
  have hne : ("CS200" == "CS100") = false := by decide
  norm_num [ticked, nodeById, clampX, clampY, width, height, padding, keys, exampleData,
    draggedOutNodes, draggedOutLinks, List.find?, hne]

/-- C8 (as stated, refuted): a drag ends on CS200 while another gesture is still
active (`event.active = 1`) and the alpha target is the reheated 3/10; after
`dragended` the alpha target is still 3/10, not 0. -/
theorem C8_alpha_target_kept_while_active :
    (dragended { active := 1, x := 50, y := 50 }
        { id := "CS200", x := 50, y := 50, fx := some 50, fy := some 50 }
        { alpha := 3 / 10, alphaTarget := 3 / 10, running := true }).2.alphaTarget = 3 / 10 ∧
      (dragended { active := 1, x := 50, y := 50 }
        { id := "CS200", x := 50, y := 50, fx := some 50, fy := some 50 }
        { alpha := 3 / 10, alphaTarget := 3 / 10, running := true }).2.alphaTarget ≠ 0 := by
  norm_num [dragended]

/-- C8 (amended): after `dragended` the node's pin is cleared (`fx` and `fy` are
both unset) and its id, x and y are as before; the alpha target is 0 when the
event's `active` count is 0, and the simulation is left as it was when the
count is not 0. -/
theorem C8_dragended_unpins (event : DragEvent) (d : SimNode) (simulation : Simulation) :
    (dragended event d simulation).1.fx = none ∧
      (dragended event d simulation).1.fy = none ∧
      (dragended event d simulation).1.id = d.id ∧
      (dragended event d simulation).1.x = d.x ∧
      (dragended event d simulation).1.y = d.y ∧
      (event.active = 0 →
        (dragended event d simulation).2 = { simulation with alphaTarget := 0 }) ∧
      (event.active ≠ 0 → (dragended event d simulation).2 = simulation) := by
  refine ⟨rfl, rfl, rfl, rfl, rfl, ?_, ?_⟩
  · intro h
    simp [dragended, h]
  · intro h
    simp [dragended, h]

theorem C8_dragended_unpins_witness :
    (dragended { active := 0, x := 50, y := 50 }
        { id := "CS200", x := 50, y := 50, fx := some 50, fy := some 50 }
        { alpha := 3 / 10, alphaTarget := 3 / 10, running := true }).2 =
      { alpha := 3 / 10, alphaTarget := 0, running := true } :=
  (C8_dragended_unpins { active := 0, x := 50, y := 50 }
    { id := "CS200", x := 50, y := 50, fx := some 50, fy := some 50 }
    { alpha := 3 / 10, alphaTarget := 3 / 10, running := true }).2.2.2.2.2.1 rfl

/-- C10: a non-empty mapping whose edges between existing nodes contain no
directed cycle has a non-empty `headNodes`, so some node is highlighted; the
cyclic mappings `{A: [B], B: [A]}` and `{A: [A]}` are non-empty and have an
empty `headNodes`, every node being filled `"#ccc"`. -/
theorem C10_acyclic_has_root (data : Data) (hne : data ≠ []) (hac : Acyclic data) :
    headNodes data ≠ [] ∧
      (∃ n ∈ nodes data, fill data n = "red") ∧
      (cycleData ≠ [] ∧ ¬ Acyclic cycleData ∧ headNodes cycleData = [] ∧
        ∀ n ∈ nodes cycleData, fill cycleData n = "#ccc") ∧
      (selfLoopData ≠ [] ∧ ¬ Acyclic selfLoopData ∧ headNodes selfLoopData = [] ∧
        ∀ n ∈ nodes selfLoopData, fill selfLoopData n = "#ccc") := by
  obtain ⟨k, hk, hhead⟩ := exists_head_of_acyclic data hne hac
  refine ⟨List.ne_nil_of_mem hhead, ⟨{ id := k }, List.mem_map.mpr ⟨k, hk, rfl⟩,
    (fill_red_iff data _).mpr hhead⟩, ⟨by decide, ?_, by decide, by decide⟩,
    ⟨by decide, ?_, by decide, by decide⟩⟩
  · intro h
    have e1 : Edge cycleData "A" "B" := ⟨by decide, by decide⟩
    have e2 : Edge cycleData "B" "A" := ⟨by decide, by decide⟩
    exact h "A" (Relation.TransGen.tail (Relation.TransGen.single e1) e2)
  · intro h
    have e1 : Edge selfLoopData "A" "A" := ⟨by decide, by decide⟩
    exact h "A" (Relation.TransGen.single e1)

theorem C10_acyclic_has_root_witness :
    exampleData ≠ [] ∧ Acyclic exampleData ∧ headNodes exampleData ≠ [] :=
  ⟨by decide, exampleData_acyclic,
    (C10_acyclic_has_root exampleData (by decide) exampleData_acyclic).1⟩

end CourseTree

namespace SiteScripts

/-! ## Search filter: helper lemmas -/

theorem indexOfFrom_le_iff (t s : List Char) (k : Nat) :
    indexOfFrom t s k ≤ -1 ↔ ¬ t <:+: s := by
  induction s generalizing k with
  | nil =>
    unfold indexOfFrom
    by_cases ht : t = []
    · subst ht
      simp
      omega
    · have hp : t.isPrefixOf [] = false := by
        cases t with
        | nil => exact absurd rfl ht
        | cons a as => rfl
      simp [hp, ht]
  | cons c cs ih =>
    unfold indexOfFrom
    rw [List.infix_cons_iff]
    by_cases hp : t.isPrefixOf (c :: cs) = true
    · rw [if_pos hp]
      have hpre : t <+: c :: cs := List.isPrefixOf_iff_prefix.mp hp
      constructor
      · intro h
        omega
      · intro h
        exact absurd (Or.inl hpre) h
    · rw [if_neg hp, ih]
      have hpre : ¬ t <+: c :: cs := fun h => hp ( List.isPrefixOf_iff_prefix.mpr h)
      tauto

theorem indexOf_le_iff (s t : List Char) : indexOf s t ≤ -1 ↔ ¬ t <:+: s :=
  indexOfFrom_le_iff t s 0

theorem toUpperCase_eq_nil_iff (upc : Char → List Char) (hup : ∀ c, upc c ≠ []) (s : List Char) :
    toUpperCase upc s = [] ↔ s = [] := by
  unfold toUpperCase
  rw [List.flatMap_eq_nil_iff]
  constructor
  · intro h
    cases s with
    | nil => rfl
    | cons c cs => exact absurd (h c (List.mem_cons_self c cs)) (hup c)
  · intro h
    subst h
    simp

theorem courseFilter_iff (upc : Char → List Char) (hup : ∀ c, upc c ≠ []) (e : Nat) (page : Page) :
    courseFilter upc e page = true ↔
      page.value ≠ [] ∧
        ¬ toUpperCase upc page.value <:+: toUpperCase upc (page.courseCode e) := by
  unfold courseFilter
  simp only [List.isEmpty_iff]
  by_cases hv : toUpperCase upc page.value = []
  · have hnil : page.value = [] := (toUpperCase_eq_nil_iff upc hup _).mp hv
    simp only [hv, if_true]
    simp [hnil]
  · have hnn : page.value ≠ [] := fun h => hv ((toUpperCase_eq_nil_iff upc hup _).mpr h)
    simp only [hv, if_false]
    simp [hnn, indexOf_le_iff]

theorem keyup_cons (upc : Char → List Char) (e : Nat) (es : List Nat) (page : Page) :
    keyup upc (e :: es) page = keyup upc es (keyupStep upc page e) := rfl

theorem keyupStep_value (upc : Char → List Char) (page : Page) (e : Nat) :
    (keyupStep upc page e).value = page.value ∧
      (keyupStep upc page e).courseCode = page.courseCode := by
  unfold keyupStep
  split <;> exact ⟨rfl, rfl⟩

theorem courseFilter_congr (upc : Char → List Char) (p q : Page) (hv : p.value = q.value)
    (hc : p.courseCode = q.courseCode) (e : Nat) : courseFilter upc e p = courseFilter upc e q := by
  unfold courseFilter
  rw [hv, hc]

theorem keyupStep_display (upc : Char → List Char) (page : Page) (e0 e : Nat) :
    (keyupStep upc page e0).display e =
      if e = e0 then (if courseFilter upc e0 page then "none" else "") else page.display e := by
  unfold keyupStep
  by_cases hf : courseFilter upc e0 page = true
  · simp [hf, hideElement]
  · simp [hf, showElement]

theorem keyup_display (upc : Char → List Char) (es : List Nat) (page : Page) (e : Nat) :
    (keyup upc es page).display e =
      if e ∈ es then (if courseFilter upc e page then "none" else "") else page.display e := by
  induction es generalizing page with
  | nil => simp [keyup, filterFactory]
  | cons e0 es ih =>
    rw [keyup_cons, ih]
    have hc : ∀ x, courseFilter upc x (keyupStep upc page e0) = courseFilter upc x page :=
      courseFilter_congr upc _ _ (keyupStep_value upc page e0).1 (keyupStep_value upc page e0).2
    rw [hc, keyupStep_display]
    by_cases hmem : e ∈ es
    · simp [hmem]
    · by_cases he : e = e0
      · subst he
        simp [hmem]
      · simp [hmem, he]

theorem logged_run (upc : Char → List Char) (es : List Nat) (page : Page)
    (log : List (Nat × Call)) :
    filterFactory es (loggedFilter (courseFilter upc)) (logged Call.showFunc showElement)
        (logged Call.hideFunc hideElement) (page, log) =
      (keyup upc es page,
        log ++ es.map (fun e =>
          (e, if courseFilter upc e page then Call.hideFunc else Call.showFunc))) := by
  induction es generalizing page log with
  | nil => simp [keyup, filterFactory]
  | cons e0 es ih =>
    have hstep : filterFactory (e0 :: es) (loggedFilter (courseFilter upc))
        (logged Call.showFunc showElement) (logged Call.hideFunc hideElement) (page, log) =
        filterFactory es (loggedFilter (courseFilter upc))
          (logged Call.showFunc showElement) (logged Call.hideFunc hideElement)
          (keyupStep upc page e0,
            log ++ [(e0, if courseFilter upc e0 page then Call.hideFunc else Call.showFunc)]) := by
      unfold filterFactory
      rw [List.foldl_cons]
      congr 1
      unfold loggedFilter logged keyupStep
      by_cases hf : courseFilter upc e0 page = true
      · simp [hf]
      · simp [hf]
    rw [hstep, ih, keyup_cons]
    have hc : ∀ x, courseFilter upc x (keyupStep upc page e0) = courseFilter upc x page :=
      courseFilter_congr upc _ _ (keyupStep_value upc page e0).1 (keyupStep_value upc page e0).2
    simp [hc]

/-! ## Search filter: the claim -/

/-- C9: after the keyup handler built by `filterFactory` has run over the course
elements, each element has had exactly one of the show / hide callbacks applied
(the call log lists the elements once each, in order); an element is hidden
(display `"none"`) exactly when the search text is non-empty and its upper-cased
form occurs nowhere in the element's upper-cased course code, and is shown
(display `""`) otherwise; with an empty search text every element is shown. -/
theorem C9_search_filter (upc : Char → List Char) (hup : ∀ c, upc c ≠ [])
    (coursesList : List Nat) (page : Page) :
    (filterFactory coursesList (loggedFilter (courseFilter upc))
        (logged Call.showFunc showElement) (logged Call.hideFunc hideElement) (page, [])).1 =
        keyup upc coursesList page ∧
      ((filterFactory coursesList (loggedFilter (courseFilter upc))
        (logged Call.showFunc showElement) (logged Call.hideFunc hideElement) (page, [])).2.map
          Prod.fst = coursesList) ∧
      (∀ e ∈ coursesList,
        ((keyup upc coursesList page).display e = "none" ↔
          page.value ≠ [] ∧
            ¬ toUpperCase upc page.value <:+: toUpperCase upc (page.courseCode e)) ∧
        ((keyup upc coursesList page).display e = "" ↔
          ¬ (page.value ≠ [] ∧
            ¬ toUpperCase upc page.value <:+: toUpperCase upc (page.courseCode e)))) ∧
      (page.value = [] → ∀ e ∈ coursesList, (keyup upc coursesList page).display e = "") := by
  have hdisp : ∀ e ∈ coursesList, (keyup upc coursesList page).display e =
      if courseFilter upc e page then "none" else "" := by
    intro e he
    rw [keyup_display, if_pos he]
  refine ⟨by rw [logged_run], ?_, ?_, ?_⟩
  · rw [logged_run]
    simp [Function.comp_def]
  · intro e he
    rw [hdisp e he, ← courseFilter_iff upc hup]
    by_cases hf : courseFilter upc e page = true
    · simp [hf]
    · simp [hf]
  · intro hv e he
    rw [hdisp e he]
    have : ¬ courseFilter upc e page = true := by
      rw [courseFilter_iff upc hup]
      exact fun h => h.1 hv
    simp [this]

theorem C9_search_filter_witness :
    (∀ c, asciiUpper c ≠ []) ∧
      ((keyup asciiUpper [0, 1] examplePage).display 1 = "none" ↔
        examplePage.value ≠ [] ∧
          ¬ toUpperCase asciiUpper examplePage.value <:+:
            toUpperCase asciiUpper (examplePage.courseCode 1)) :=
  ⟨fun c => by simp [asciiUpper],
    ((C9_search_filter asciiUpper (fun c => by simp [asciiUpper]) [0, 1] examplePage).2.2.1 1
      (by decide)).1⟩

end SiteScripts
